import Mathlib

/-
  Verification of the pycpp/adaptor primitives: a shallow embedding of
  `src/heap_pimpl.h`, `src/stack_pimpl.h` and `src/singleton.h`.

  Memory is modelled as a bump-allocating heap: a partial map from
  addresses (Nat) to payload values, plus an allocation frontier.
  `operator new` / `allocator::allocate` + construct is `Heap.alloc`,
  assignment through a handle (`get() = v`) is `Heap.write`, and
  `delete` / destroy + deallocate is `Heap.free`.
-/

namespace PycppAdaptor

/-- A C++ heap: `mem a = some v` means address `a` holds a live payload `v`,
`mem a = none` means the address is unallocated (or freed). `next` is the
bump-allocation frontier: every address ever handed out is below it. -/
structure Heap (α : Type) where
  mem : Nat → Option α
  next : Nat

/-- Pointwise function update used by the heap operations. -/
def updFn {α : Type} (f : Nat → Option α) (a : Nat) (v : Option α) : Nat → Option α :=
  fun x => if x = a then v else f x

/-- Allocate-and-construct: models `allocator::allocate(1)` followed by
`allocator::construct` (or `new T(...)`). Returns the fresh address. -/
def Heap.alloc {α : Type} (h : Heap α) (v : α) : Nat × Heap α :=
  (h.next, ⟨updFn h.mem h.next (some v), h.next + 1⟩)

/-- In-place assignment through a pointer: models `*p = v`. -/
def Heap.write {α : Type} (h : Heap α) (a : Nat) (v : α) : Heap α :=
  ⟨updFn h.mem a (some v), h.next⟩

/-- Destroy-and-deallocate: models `delete p` on a non-null `p`. -/
def Heap.free {α : Type} (h : Heap α) (a : Nat) : Heap α :=
  ⟨updFn h.mem a none, h.next⟩

/-- Dereference: models `*p`, defined when the address is live. -/
def Heap.read {α : Type} (h : Heap α) (a : Nat) : Option α :=
  h.mem a

/-- A live, previously allocated address. -/
def Heap.valid {α : Type} (h : Heap α) (a : Nat) : Prop :=
  a < h.next ∧ (h.mem a).isSome

/-- The heap of a freshly started program. -/
def emptyHeap (α : Type) : Heap α :=
  ⟨fun _ => none, 0⟩

/-! ## `unique_heap_pimpl` and `shared_heap_pimpl` (src/heap_pimpl.h)

A `unique_heap_pimpl<T, Allocator>` is a `unique_ptr` to the payload whose
deleter carries a bound allocator instance; we model it as the payload
address plus the allocator instance (type `β`).  A `shared_heap_pimpl<T>`
is a `shared_ptr`; for the aliasing claims only its payload address
matters. -/

/-- Model of `unique_heap_pimpl<T, Allocator>`: the owning pointer's address
and the allocator instance bound into the deleter. -/
structure unique_heap_pimpl (β : Type) where
  addr : Nat
  alloc : β

/-- Model of `shared_heap_pimpl<T>`: the shared pointer's payload address. -/
structure shared_heap_pimpl where
  addr : Nat

/-- Model of the `make_heap_pimpl<T, Allocator>(ts...)` helper: default-construct
an allocator, allocate fresh storage and construct the payload value `v` in it. -/
def make_heap_pimpl {α β : Type} [Inhabited β] (h : Heap α) (v : α) :
    unique_heap_pimpl β × Heap α :=
  let r := h.alloc v
  (⟨r.1, default⟩, r.2)

/-- Model of the `unique_heap_pimpl` copy constructor
`unique_heap_pimpl(const unique_heap_pimpl& x): ptr_(make_heap_pimpl<...>(x.get()))`:
read the source payload and construct a fresh copy of it. -/
def unique_copy_ctor {α β : Type} [Inhabited α] [Inhabited β] (h : Heap α)
    (x : unique_heap_pimpl β) : unique_heap_pimpl β × Heap α :=
  make_heap_pimpl h ((h.read x.addr).getD default)

/-- Model of the `unique_heap_pimpl` move constructor
`unique_heap_pimpl(unique_heap_pimpl&& x): ptr_(make_heap_pimpl<...>(move(x.get())))`:
it reads (moves from) the source payload and constructs a FRESH payload from it;
the source handle keeps its own allocation (its payload is left in a moved-from
but alive state, modelled as the slot staying occupied). -/
def unique_move_ctor {α β : Type} [Inhabited α] [Inhabited β] (h : Heap α)
    (x : unique_heap_pimpl β) : unique_heap_pimpl β × Heap α :=
  make_heap_pimpl h ((h.read x.addr).getD default)

/-- Model of the `shared_heap_pimpl` copy constructor (`= default`): the copy
shares the same payload address (a `shared_ptr` copy bumps the count and
aliases the pointee). -/
def shared_copy_ctor (x : shared_heap_pimpl) : shared_heap_pimpl :=
  x

/-- Assignment from a payload value through a unique handle
(`operator=(const value_type&)` calls `get() = x`): mutates in place. -/
def unique_assign_value {α β : Type} (h : Heap α) (x : unique_heap_pimpl β) (v : α) :
    Heap α :=
  h.write x.addr v

/-- Assignment from a payload value through a shared handle
(`operator=(const value_type&)` calls `get() = x`): mutates in place. -/
def shared_assign_value {α : Type} (h : Heap α) (x : shared_heap_pimpl) (v : α) :
    Heap α :=
  h.write x.addr v

/-! ## `unique_heap_pimpl::swap` (src/heap_pimpl.h, lines 395-434)

`swap` dispatches on `allocator_traits::is_always_equal`.  The always-equal
branch runs `fast_swap(ptr_, x.ptr_)`, exchanging the whole `unique_ptr`s
(pointer and deleter, hence the bound allocator instances).  The checked
branch asserts `la == ra` and then exchanges only the raw pointers via
`release`/`reset` (each handle keeps its own deleter).  Neither branch
performs any copy or move operation on the payload objects; the outcome
records those operation counts explicitly. -/

/-- Outcome of a `unique_heap_pimpl::swap` call: the two resulting handles,
whether the debug assertion `la == ra` failed, and how many payload copy and
move operations the call performed. -/
structure swap_outcome (β : Type) where
  fst : unique_heap_pimpl β
  snd : unique_heap_pimpl β
  assert_failed : Bool
  payload_copies : Nat
  payload_moves : Nat

/-- Model of `swap_impl(x, true_type)`: `fast_swap(ptr_, x.ptr_)` exchanges the
whole owning pointers, deleters (allocators) included; no payload operation. -/
def swap_impl_always_equal {β : Type} (a b : unique_heap_pimpl β) : swap_outcome β :=
  ⟨⟨b.addr, b.alloc⟩, ⟨a.addr, a.alloc⟩, false, 0, 0⟩

/-- Model of `swap_impl(x, false_type)`: asserts the two bound allocator
instances compare equal, then exchanges the raw pointers by `release`/`reset`
(each deleter, hence allocator, stays with its handle); no payload operation. -/
def swap_impl_checked {β : Type} [BEq β] (a b : unique_heap_pimpl β) : swap_outcome β :=
  ⟨⟨b.addr, a.alloc⟩, ⟨a.addr, b.alloc⟩, !(a.alloc == b.alloc), 0, 0⟩

/-- Model of `unique_heap_pimpl::swap`: dispatch on
`allocator_traits<Allocator>::is_always_equal` (the `always_eq` flag). -/
def unique_pimpl_swap {β : Type} [BEq β] (always_eq : Bool)
    (a b : unique_heap_pimpl β) : swap_outcome β :=
  if always_eq then swap_impl_always_equal a b else swap_impl_checked a b

/-! ## Compile-time layout contract (src/stack_pimpl.h, lines 107-127)

`pimp_detail::assert_storage<T, Size, Alignment>` holds two `static_assert`s:
`sizeof(T) == Size` and `alignof(T) <= Alignment`.  `storage_asserter`'s
constructor calls it, and the destructors of `stack_pimpl` and of both
`stack_singleton` variants instantiate `storage_asserter` (the destructor is
the one member guaranteed to be instantiated where the payload type is
complete).  We model a translation unit's build outcome as a Boolean:
`true` = both `static_assert`s hold and the unit compiles. -/

/-- Model of `pimp_detail::assert_storage<T, Size, Alignment>`: the conjunction
of the two `static_assert` conditions `sizeof(T) == Size` and
`alignof(T) <= Alignment`; `false` means a compile-time failure. -/
def assert_storage (sizeofT alignofT sz alg : Nat) : Bool :=
  (sizeofT == sz) && decide (alignofT ≤ alg)

/-- Model of `pimp_detail::storage_asserter<T, Size, Alignment>`: its
default constructor runs `assert_storage`, so instantiating it compiles
exactly when `assert_storage` passes. -/
def storage_asserter_compiles (sizeofT alignofT sz alg : Nat) : Bool :=
  assert_storage sizeofT alignofT sz alg

/-- Whether a program instantiating `stack_pimpl<T, Size, Alignment>` builds:
its destructor (instantiated wherever the handle is destroyed, with `T`
complete) instantiates `storage_asserter`, so the build succeeds exactly when
the layout contract holds; there is no runtime check. -/
def stack_pimpl_builds (sizeofT alignofT sz alg : Nat) : Bool :=
  storage_asserter_compiles sizeofT alignofT sz alg

/-- Whether a program instantiating `stack_singleton<T, Size, Alignment, TS>`
builds: both the single- and the multi-threaded destructor instantiate
`storage_asserter` the same way `stack_pimpl`'s destructor does. -/
def stack_singleton_builds (sizeofT alignofT sz alg : Nat) : Bool :=
  storage_asserter_compiles sizeofT alignofT sz alg

/-! ## Singleton slots (src/singleton.h), sequential semantics

`heap_singleton<T, TS>` keeps a static pointer `data_` (modelled as
`Option Nat`: `none` is `nullptr`) into the modelled heap.
`stack_singleton<T, Size, Alignment, TS>` keeps a static buffer plus a
static flag `initialized_` (the buffer is modelled as `Option α`: `none`
stands for uninitialized bytes, on which no destructor may run).

The `get` functions below are the code's `get` executed by a single
thread (for the thread-safe variants this is the double-checked sequence
run without interference; the interleaved protocol is modelled separately
further down).  Destructors return the new state, the list of teardown
effects in program order, and whether the debug `assert` at the end fired. -/

/-- State of the `heap_singleton` slot: the modelled heap plus the static
pointer `data_` (`none` models `nullptr`). -/
structure heap_singleton_state (α : Type) where
  heap : Heap α
  data : Option Nat

/-- State of the `stack_singleton` slot: the static flag `initialized_` and
the static buffer contents (`none` models uninitialized bytes). -/
structure stack_singleton_state (α : Type) where
  inited : Bool
  buf : Option α

/-- The slot representation the code treats as "not yet initialized"
(`data_ == nullptr`). -/
def heap_slot_inited {α : Type} (s : heap_singleton_state α) : Bool :=
  s.data.isSome

/-- The slot representation the code treats as "not yet initialized"
(`initialized_ == false`). -/
def stack_slot_inited {α : Type} (s : stack_singleton_state α) : Bool :=
  s.inited

/-- Program-start state of a `heap_singleton` slot: `data_ = nullptr`. -/
def heap_singleton_start : heap_singleton_state Nat :=
  ⟨emptyHeap Nat, none⟩

/-- Program-start state of a `stack_singleton` slot: `initialized_ = false`,
buffer bytes uninitialized. -/
def stack_singleton_start : stack_singleton_state Nat :=
  ⟨false, none⟩

/-- Model of `heap_singleton<T, false>::get(ts...)` (lines 102-113): if
`data_ == nullptr`, allocate and construct from the supplied arguments and
store the pointer; otherwise return the existing pointee.  Result: the
returned address, the new state, and whether a construction was performed. -/
def heap_singleton_get {α : Type} (s : heap_singleton_state α) (arg : α) :
    Nat × heap_singleton_state α × Bool :=
  match s.data with
  | some a => (a, s, false)
  | none =>
    let r := s.heap.alloc arg
    (r.1, ⟨r.2, some r.1⟩, true)

/-- Model of `heap_singleton<T, true>::get(ts...)` (lines 148-165) executed
sequentially: acquire-load `data_`; if null, lock the mutex, re-load, and only
construct if still null; the fast path returns the loaded pointer. -/
def heap_singleton_get_mt {α : Type} (s : heap_singleton_state α) (arg : α) :
    Nat × heap_singleton_state α × Bool :=
  match s.data with
  | some a => (a, s, false)
  | none =>
    match s.data with
    | some a => (a, s, false)
    | none =>
      let r := s.heap.alloc arg
      (r.1, ⟨r.2, some r.1⟩, true)

/-- Model of `stack_singleton<T, Size, Alignment, false>::get(ts...)`
(lines 228-241): if `initialized_` is false, placement-construct the payload
in the static buffer from the supplied arguments and set the flag; the
returned reference is always the (unique, fixed) static buffer.  Result:
the new state and whether a construction was performed. -/
def stack_singleton_get {α : Type} (s : stack_singleton_state α) (arg : α) :
    stack_singleton_state α × Bool :=
  if s.inited then (s, false) else (⟨true, some arg⟩, true)

/-- Model of `stack_singleton<T, Size, Alignment, true>::get(ts...)`
(lines 289-305) executed sequentially: load `initialized_`; if false, lock,
re-load, and only construct if still false. -/
def stack_singleton_get_mt {α : Type} (s : stack_singleton_state α) (arg : α) :
    stack_singleton_state α × Bool :=
  if s.inited then (s, false)
  else if s.inited then (s, false) else (⟨true, some arg⟩, true)

/-- Teardown effects a singleton destructor can perform, in program order. -/
inductive dtor_event where
  | ptr_read (p : Option Nat)
  | slot_cleared
  | pointee_freed (a : Nat)
  | flag_read (b : Bool)
  | flag_cleared
  | payload_destroyed
deriving DecidableEq

/-- Payload-touching teardown effects (`delete p` on non-null `p`, or an
explicit `r.~T()` call). -/
def is_payload_event : dtor_event → Bool
  | dtor_event.pointee_freed _ => true
  | dtor_event.payload_destroyed => true
  | _ => false

/-- Model of `~heap_singleton<T, false>` (lines 120-129): read `data_` into a
temporary, null the slot, `delete` the temporary (a no-op on `nullptr`), then
debug-assert the temporary was non-null.  Result: new state, effect list in
program order, and whether the assert fired. -/
def heap_singleton_dtor {α : Type} (s : heap_singleton_state α) :
    heap_singleton_state α × List dtor_event × Bool :=
  let tmp := s.data
  match tmp with
  | some a =>
    (⟨s.heap.free a, none⟩,
      [dtor_event.ptr_read tmp, dtor_event.slot_cleared, dtor_event.pointee_freed a],
      false)
  | none =>
    (⟨s.heap, none⟩, [dtor_event.ptr_read tmp, dtor_event.slot_cleared], true)

/-- Model of `~heap_singleton<T, true>` (lines 172-181): acquire-load `data_`
into a temporary, release-store `nullptr`, `delete` the temporary, then
debug-assert it was non-null. -/
def heap_singleton_dtor_mt {α : Type} (s : heap_singleton_state α) :
    heap_singleton_state α × List dtor_event × Bool :=
  let tmp := s.data
  match tmp with
  | some a =>
    (⟨s.heap.free a, none⟩,
      [dtor_event.ptr_read tmp, dtor_event.slot_cleared, dtor_event.pointee_freed a],
      false)
  | none =>
    (⟨s.heap, none⟩, [dtor_event.ptr_read tmp, dtor_event.slot_cleared], true)

/-- Model of `~stack_singleton<T, Size, Alignment, false>` (lines 248-261):
read `initialized_` into a temporary, clear the flag, run the payload's
destructor only if the temporary was true, then debug-assert it was true.
(`storage_asserter` is compile-time only and contributes no runtime effect.) -/
def stack_singleton_dtor {α : Type} (s : stack_singleton_state α) :
    stack_singleton_state α × List dtor_event × Bool :=
  let tmp := s.inited
  if tmp then
    (⟨false, none⟩,
      [dtor_event.flag_read tmp, dtor_event.flag_cleared, dtor_event.payload_destroyed],
      false)
  else
    (⟨false, s.buf⟩, [dtor_event.flag_read tmp, dtor_event.flag_cleared], true)

/-- Model of `~stack_singleton<T, Size, Alignment, true>` (lines 312-324):
acquire-load `initialized_` into a temporary, release-store false, run the
payload's destructor only if the temporary was true, then debug-assert. -/
def stack_singleton_dtor_mt {α : Type} (s : stack_singleton_state α) :
    stack_singleton_state α × List dtor_event × Bool :=
  let tmp := s.inited
  if tmp then
    (⟨false, none⟩,
      [dtor_event.flag_read tmp, dtor_event.flag_cleared, dtor_event.payload_destroyed],
      false)
  else
    (⟨false, s.buf⟩, [dtor_event.flag_read tmp, dtor_event.flag_cleared], true)

/-- An operation on a singleton slot: a `get(arg)` call or a run of the
(derived object's) destructor. -/
inductive singleton_op (α : Type) where
  | call (arg : α)
  | dtor

/-- Whether an operation sequence consists of `get` calls only. -/
def calls_only {α : Type} : List (singleton_op α) → Bool
  | [] => true
  | singleton_op.call _ :: ops => calls_only ops
  | singleton_op.dtor :: _ => false

/-- Run a sequence of operations against a `heap_singleton<T, false>` slot. -/
def heap_singleton_run {α : Type} (s : heap_singleton_state α) :
    List (singleton_op α) → heap_singleton_state α
  | [] => s
  | singleton_op.call a :: ops => heap_singleton_run (heap_singleton_get s a).2.1 ops
  | singleton_op.dtor :: ops => heap_singleton_run (heap_singleton_dtor s).1 ops

/-- Run a sequence of operations against a `heap_singleton<T, true>` slot
(sequential execution). -/
def heap_singleton_run_mt {α : Type} (s : heap_singleton_state α) :
    List (singleton_op α) → heap_singleton_state α
  | [] => s
  | singleton_op.call a :: ops => heap_singleton_run_mt (heap_singleton_get_mt s a).2.1 ops
  | singleton_op.dtor :: ops => heap_singleton_run_mt (heap_singleton_dtor_mt s).1 ops

/-- Run a sequence of operations against a `stack_singleton<..., false>` slot. -/
def stack_singleton_run {α : Type} (s : stack_singleton_state α) :
    List (singleton_op α) → stack_singleton_state α
  | [] => s
  | singleton_op.call a :: ops => stack_singleton_run (stack_singleton_get s a).1 ops
  | singleton_op.dtor :: ops => stack_singleton_run (stack_singleton_dtor s).1 ops

/-- Run a sequence of operations against a `stack_singleton<..., true>` slot
(sequential execution). -/
def stack_singleton_run_mt {α : Type} (s : stack_singleton_state α) :
    List (singleton_op α) → stack_singleton_state α
  | [] => s
  | singleton_op.call a :: ops => stack_singleton_run_mt (stack_singleton_get_mt s a).1 ops
  | singleton_op.dtor :: ops => stack_singleton_run_mt (stack_singleton_dtor_mt s).1 ops

/-- The debug-assert outcomes of the destructor runs in an operation
sequence against a `heap_singleton<T, false>` slot, in order. -/
def heap_singleton_run_asserts {α : Type} (s : heap_singleton_state α) :
    List (singleton_op α) → List Bool
  | [] => []
  | singleton_op.call a :: ops => heap_singleton_run_asserts (heap_singleton_get s a).2.1 ops
  | singleton_op.dtor :: ops =>
    (heap_singleton_dtor s).2.2 :: heap_singleton_run_asserts (heap_singleton_dtor s).1 ops

/-! ## The thread-safe initialization protocol as a transition system

Interleaved model of `heap_singleton<T, true>::get` (src/singleton.h,
lines 148-165) and `stack_singleton<T, Size, Alignment, true>::get`
(lines 289-305).  Both run the same double-checked-locking protocol:

  1. atomically load the initialization marker (`data_` with
     `memory_order_acquire`, resp. `initialized_`); if it reads
     "initialized", return at once — no lock;
  2. otherwise acquire the mutex, re-load the marker under the lock, and
     if it is still clear, run the payload constructor and only then
     store the marker with `memory_order_release`; unlock and return.

Threads are identified by naturals; each step of the relation is one
atomic action of one thread, so the relation ranges over all
interleavings.  The release store / acquire load pairing is represented
by program order: the marker store happens-after construction completes
on the storing thread, and the model's single shared payload cell is what
an acquire-synchronized reader observes. -/

/-- Construction status of the singleton payload: no object yet, the
constructor running (a partially constructed object), or a fully
constructed object. -/
inductive ctor_state where
  | absent
  | underway
  | complete
deriving DecidableEq

/-- Program counter of one thread inside `get()`. -/
inductive thread_pc where
  | start
  | waiting
  | locked
  | constructing
  | publishing
  | unlocking
  | finished
deriving DecidableEq

/-- One thread's local state: its position in `get()`, whether it returned
via the fast path, and whether it ever acquired the mutex. -/
structure thread_st where
  pc : thread_pc
  fast : Bool
  took_lock : Bool
deriving DecidableEq

/-- Global state of the thread-safe singleton protocol: the atomic
initialization marker, the payload construction status, the mutex holder
(if any), and every thread's local state. -/
structure dcl_state where
  marker : Bool
  payload : ctor_state
  mutex : Option Nat
  threads : Nat → thread_st

/-- Replace the local state of thread `t`. -/
def set_thread (s : dcl_state) (t : Nat) (ts : thread_st) : dcl_state :=
  { s with threads := Function.update s.threads t ts }

/-- Initial state: marker clear, no payload, mutex free, every thread about
to enter `get()`. -/
def dcl_init : dcl_state :=
  ⟨false, ctor_state.absent, none, fun _ => ⟨thread_pc.start, false, false⟩⟩

/-- Whether a program position is inside the mutex-protected region. -/
def in_cs : thread_pc → Bool
  | thread_pc.locked => true
  | thread_pc.constructing => true
  | thread_pc.publishing => true
  | thread_pc.unlocking => true
  | _ => false

/-- One atomic action of one thread of the double-checked-locking `get`.
Each constructor is one line of the source: the initial acquire load (hit
or miss), the mutex acquisition, the re-check under the lock (hit or
miss, the miss starting the payload constructor), constructor completion,
the release store of the marker, and the mutex release on return. -/
inductive dcl_step : dcl_state → dcl_state → Prop where
  | fast_hit {s : dcl_state} (t : Nat) :
      (s.threads t).pc = thread_pc.start → s.marker = true →
      dcl_step s (set_thread s t ⟨thread_pc.finished, true, (s.threads t).took_lock⟩)
  | fast_miss {s : dcl_state} (t : Nat) :
      (s.threads t).pc = thread_pc.start → s.marker = false →
      dcl_step s (set_thread s t ⟨thread_pc.waiting, (s.threads t).fast, (s.threads t).took_lock⟩)
  | acquire {s : dcl_state} (t : Nat) :
      (s.threads t).pc = thread_pc.waiting → s.mutex = none →
      dcl_step s
        { set_thread s t ⟨thread_pc.locked, (s.threads t).fast, true⟩ with mutex := some t }
  | recheck_hit {s : dcl_state} (t : Nat) :
      (s.threads t).pc = thread_pc.locked → s.marker = true →
      dcl_step s (set_thread s t ⟨thread_pc.unlocking, (s.threads t).fast, (s.threads t).took_lock⟩)
  | recheck_miss {s : dcl_state} (t : Nat) :
      (s.threads t).pc = thread_pc.locked → s.marker = false →
      dcl_step s
        { set_thread s t ⟨thread_pc.constructing, (s.threads t).fast, (s.threads t).took_lock⟩ with
            payload := ctor_state.underway }
  | finish_ctor {s : dcl_state} (t : Nat) :
      (s.threads t).pc = thread_pc.constructing →
      dcl_step s
        { set_thread s t ⟨thread_pc.publishing, (s.threads t).fast, (s.threads t).took_lock⟩ with
            payload := ctor_state.complete }
  | publish {s : dcl_state} (t : Nat) :
      (s.threads t).pc = thread_pc.publishing →
      dcl_step s
        { set_thread s t ⟨thread_pc.unlocking, (s.threads t).fast, (s.threads t).took_lock⟩ with
            marker := true }
  | release {s : dcl_state} (t : Nat) :
      (s.threads t).pc = thread_pc.unlocking →
      dcl_step s
        { set_thread s t ⟨thread_pc.finished, (s.threads t).fast, (s.threads t).took_lock⟩ with
            mutex := none }

/-- States reachable from the initial state under any interleaving. -/
inductive dcl_reachable : dcl_state → Prop where
  | init : dcl_reachable dcl_init
  | step {s s' : dcl_state} : dcl_reachable s → dcl_step s s' → dcl_reachable s'

/-- The protocol's inductive invariant. -/
structure dcl_inv (s : dcl_state) : Prop where
  marker_complete : s.marker = true → s.payload = ctor_state.complete
  cs_owner : ∀ t, in_cs (s.threads t).pc = true → s.mutex = some t
  ctor_underway : ∀ t, (s.threads t).pc = thread_pc.constructing →
    s.payload = ctor_state.underway ∧ s.marker = false
  pub_ready : ∀ t, (s.threads t).pc = thread_pc.publishing →
    s.payload = ctor_state.complete ∧ s.marker = false
  unlock_complete : ∀ t, (s.threads t).pc = thread_pc.unlocking →
    s.payload = ctor_state.complete
  done_complete : ∀ t, (s.threads t).pc = thread_pc.finished →
    s.payload = ctor_state.complete
  underway_owner : s.payload = ctor_state.underway →
    ∃ t, (s.threads t).pc = thread_pc.constructing
  complete_pub : s.payload = ctor_state.complete → s.marker = false →
    ∃ t, (s.threads t).pc = thread_pc.publishing
  start_fresh : ∀ t, (s.threads t).pc = thread_pc.start →
    (s.threads t).fast = false ∧ (s.threads t).took_lock = false
  fast_done : ∀ t, (s.threads t).fast = true →
    (s.threads t).pc = thread_pc.finished ∧ (s.threads t).took_lock = false

/-! ## Concrete example states used by witnesses and counterexamples -/

/-- A heap holding one live payload (value 5 at address 0). -/
def ex_heap : Heap Nat :=
  ((emptyHeap Nat).alloc 5).2

/-- A valid unique handle to the payload of `ex_heap` (allocator instance 0). -/
def ex_unique : unique_heap_pimpl Nat :=
  ⟨0, 0⟩

/-- A shared handle to the payload of `ex_heap`. -/
def ex_shared : shared_heap_pimpl :=
  ⟨0⟩

/-- Protocol demo, step 1: thread 0's initial load misses (marker clear). -/
def dcl_d1 : dcl_state :=
  set_thread dcl_init 0 ⟨thread_pc.waiting, false, false⟩

/-- Protocol demo, step 2: thread 0 acquires the mutex. -/
def dcl_d2 : dcl_state :=
  { set_thread dcl_d1 0 ⟨thread_pc.locked, false, true⟩ with mutex := some 0 }

/-- Protocol demo, step 3: the re-check under the lock still misses, so
thread 0 starts the payload constructor. -/
def dcl_d3 : dcl_state :=
  { set_thread dcl_d2 0 ⟨thread_pc.constructing, false, true⟩ with
      payload := ctor_state.underway }

/-- Protocol demo, step 4: the constructor completes. -/
def dcl_d4 : dcl_state :=
  { set_thread dcl_d3 0 ⟨thread_pc.publishing, false, true⟩ with
      payload := ctor_state.complete }

/-- Protocol demo, step 5: thread 0 release-stores the marker. -/
def dcl_d5 : dcl_state :=
  { set_thread dcl_d4 0 ⟨thread_pc.unlocking, false, true⟩ with marker := true }

/-- Protocol demo, step 6: thread 0 unlocks and returns; the marker is set
and the payload fully constructed. -/
def dcl_d6 : dcl_state :=
  { set_thread dcl_d5 0 ⟨thread_pc.finished, false, true⟩ with mutex := none }

/-! # Theorems -/

@[simp]
theorem Heap.read_write_self {α : Type} (h : Heap α) (a : Nat) (v : α) :
    (h.write a v).read a = some v := by
  simp [Heap.read, Heap.write, updFn]

theorem Heap.read_write_ne {α : Type} (h : Heap α) {a b : Nat} (hab : b ≠ a) (v : α) :
    (h.write a v).read b = h.read b := by
  simp [Heap.read, Heap.write, updFn, hab]

theorem Heap.read_alloc_ne {α : Type} (h : Heap α) (v : α) {a : Nat}
    (ha : a ≠ h.next) : (h.alloc v).2.read a = h.read a := by
  simp [Heap.read, Heap.alloc, updFn, ha]

theorem Heap.read_alloc_self {α : Type} (h : Heap α) (v : α) :
    (h.alloc v).2.read (h.alloc v).1 = some v := by
  simp [Heap.read, Heap.alloc, updFn]

/-- Claim C3: for every instantiation of `stack_pimpl<T, Size, Alignment>` or
`stack_singleton<T, Size, Alignment, ThreadSafe>`, if the declared buffer does
not satisfy `sizeof(T) == Size` and `alignof(T) <= Alignment`, the program
fails to build: the `static_assert`s in `pimp_detail::assert_storage`,
instantiated from the destructor (where the payload type is complete), reject
the translation unit, so no linkable binary has a layout mismatch. -/
theorem stack_storage_mismatch_fails_build (sizeofT alignofT sz alg : Nat)
    (h : ¬ (sizeofT = sz ∧ alignofT ≤ alg)) :
    stack_pimpl_builds sizeofT alignofT sz alg = false ∧
    stack_singleton_builds sizeofT alignofT sz alg = false := by
  have hb : assert_storage sizeofT alignofT sz alg = false := by
    by_cases hsz : sizeofT = sz
    · have hal : ¬ alignofT ≤ alg := fun hal => h ⟨hsz, hal⟩
      simp [assert_storage, hal]
    · simp [assert_storage, hsz]
  exact ⟨hb, hb⟩

/-- Witness for C3: a buffer declared with `Size = 4` for a payload with
`sizeof(T) = 8` (alignments 4 and 8) does not build. -/
theorem stack_storage_mismatch_fails_build_witness :
    (¬ ((8 : Nat) = 4 ∧ (4 : Nat) ≤ 8)) ∧
    stack_pimpl_builds 8 4 4 8 = false ∧ stack_singleton_builds 8 4 4 8 = false :=
  ⟨by decide, stack_storage_mismatch_fails_build 8 4 4 8 (by decide)⟩

/-- Claim C4: copy-constructing a `unique_heap_pimpl` B from A allocates a
fresh, independent payload holding a copy of A's payload, so mutating through
B never changes A's payload; copy-constructing a `shared_heap_pimpl` B from A
aliases A's payload, so a mutation through B is observable through A. -/
theorem unique_copy_deep_shared_copy_aliases {α β : Type} [Inhabited α] [Inhabited β]
    (h : Heap α) (A : unique_heap_pimpl β) (S : shared_heap_pimpl)
    (hA : h.valid A.addr) :
    ((unique_copy_ctor h A).1.addr ≠ A.addr) ∧
    ((unique_copy_ctor h A).2.read (unique_copy_ctor h A).1.addr
      = some ((h.read A.addr).getD default)) ∧
    ((unique_copy_ctor h A).2.read A.addr = h.read A.addr) ∧
    (∀ v : α,
      (unique_assign_value (unique_copy_ctor h A).2 (unique_copy_ctor h A).1 v).read A.addr
        = h.read A.addr) ∧
    ((shared_copy_ctor S).addr = S.addr) ∧
    (∀ v : α, (shared_assign_value h (shared_copy_ctor S) v).read S.addr = some v) := by
  rcases hA with ⟨hlt, _⟩
  have hne : A.addr ≠ h.next := Nat.ne_of_lt hlt
  have haddr : (unique_copy_ctor h A).1.addr = h.next := rfl
  refine ⟨?_, ?_, ?_, ?_, rfl, ?_⟩
  · rw [haddr]; exact fun hc => hne hc.symm
  · exact Heap.read_alloc_self h _
  · exact Heap.read_alloc_ne h _ hne
  · intro v
    rw [unique_assign_value, Heap.read_write_ne _ (by rw [haddr]; exact hne) v]
    exact Heap.read_alloc_ne h _ hne
  · intro v
    exact Heap.read_write_self h S.addr v

/-- Witness for C4: on the one-payload heap, the unique copy lives at the
fresh address 1 and writing 9 through it leaves the original payload 5 at
address 0 intact, while writing 9 through a shared copy is visible through
the original handle. -/
theorem unique_copy_deep_shared_copy_aliases_witness :
    ex_heap.valid ex_unique.addr ∧
    ((unique_copy_ctor ex_heap ex_unique).1.addr ≠ ex_unique.addr) ∧
    ((unique_assign_value (unique_copy_ctor ex_heap ex_unique).2
        (unique_copy_ctor ex_heap ex_unique).1 9).read ex_unique.addr
      = ex_heap.read ex_unique.addr) ∧
    ((shared_assign_value ex_heap (shared_copy_ctor ex_shared) 9).read ex_shared.addr
      = some 9) :=
  ⟨⟨by decide, by decide⟩,
    (unique_copy_deep_shared_copy_aliases ex_heap ex_unique ex_shared
      ⟨by decide, by decide⟩).1,
    (unique_copy_deep_shared_copy_aliases ex_heap ex_unique ex_shared
      ⟨by decide, by decide⟩).2.2.2.1 9,
    (unique_copy_deep_shared_copy_aliases ex_heap ex_unique ex_shared
      ⟨by decide, by decide⟩).2.2.2.2.2 9⟩

/-- Claim C5: `unique_heap_pimpl::swap` with a non-always-equal allocator type
fires the debug assertion exactly when the two bound allocator instances
compare unequal; with equal instances or an always-equal allocator type it
exchanges the owning pointers and performs zero payload copy or move
operations. -/
theorem unique_swap_allocator_contract {β : Type} [BEq β] (ae : Bool)
    (a b : unique_heap_pimpl β) :
    (ae = false → (a.alloc == b.alloc) = false →
      (unique_pimpl_swap ae a b).assert_failed = true) ∧
    (ae = true ∨ (a.alloc == b.alloc) = true →
      (unique_pimpl_swap ae a b).assert_failed = false ∧
      (unique_pimpl_swap ae a b).fst.addr = b.addr ∧
      (unique_pimpl_swap ae a b).snd.addr = a.addr ∧
      (unique_pimpl_swap ae a b).payload_copies = 0 ∧
      (unique_pimpl_swap ae a b).payload_moves = 0) := by
  cases ae with
  | false =>
    refine ⟨fun _ hne => ?_, fun hc => ?_⟩
    · simp [unique_pimpl_swap, swap_impl_checked, hne]
    · rcases hc with hc | hc
      · exact absurd hc (by simp)
      · simp [unique_pimpl_swap, swap_impl_checked, hc]
  | true =>
    exact ⟨fun hc => absurd hc (by simp),
      fun _ => by simp [unique_pimpl_swap, swap_impl_always_equal]⟩

/-- Witness for C5: with allocator instances 1 and 2 (non-always-equal type)
the assertion fires; with always-equal dispatch the pointers are exchanged
with zero payload operations. -/
theorem unique_swap_allocator_contract_witness :
    (unique_pimpl_swap false (⟨0, (1 : Nat)⟩ : unique_heap_pimpl Nat) ⟨1, 2⟩).assert_failed
      = true ∧
    (unique_pimpl_swap true (⟨0, (1 : Nat)⟩ : unique_heap_pimpl Nat) ⟨1, 2⟩).fst.addr = 1 ∧
    (unique_pimpl_swap true (⟨0, (1 : Nat)⟩ : unique_heap_pimpl Nat) ⟨1, 2⟩).payload_copies
      = 0 :=
  ⟨(unique_swap_allocator_contract false ⟨0, 1⟩ ⟨1, 2⟩).1 rfl (by decide),
    ((unique_swap_allocator_contract true ⟨0, 1⟩ ⟨1, 2⟩).2 (Or.inl rfl)).2.1,
    ((unique_swap_allocator_contract true ⟨0, 1⟩ ⟨1, 2⟩).2 (Or.inl rfl)).2.2.2.1⟩

/-- Counterexample to C9 as stated: move-constructing from the valid handle at
address 0 of the one-payload heap yields a handle at the fresh address 1 — not
at A's former address — and A's backing allocation is still live afterwards
(A is not left empty), because the move constructor calls
`make_heap_pimpl(move(x.get()))`, which allocates fresh storage. -/
theorem unique_move_ctor_counterexample :
    (unique_move_ctor ex_heap ex_unique).1.addr = 1 ∧
    ex_unique.addr = 0 ∧
    ((unique_move_ctor ex_heap ex_unique).2.read ex_unique.addr).isSome = true := by
  refine ⟨rfl, rfl, ?_⟩
  decide

/-- Claim C9 (amended): move-constructing a `unique_heap_pimpl` B from A
allocates a fresh payload (at the allocation frontier, hence at an address
distinct from A's) and move-constructs it from A's payload; A keeps its own
backing allocation, whose slot stays live (moved-from but destructible). -/
theorem unique_move_ctor_allocates_fresh {α β : Type} [Inhabited α] [Inhabited β]
    (h : Heap α) (x : unique_heap_pimpl β) (hx : h.valid x.addr) :
    (unique_move_ctor h x).1.addr = h.next ∧
    (unique_move_ctor h x).1.addr ≠ x.addr ∧
    ((unique_move_ctor h x).2.read (unique_move_ctor h x).1.addr
      = some ((h.read x.addr).getD default)) ∧
    ((unique_move_ctor h x).2.read x.addr).isSome = true := by
  rcases hx with ⟨hlt, hlive⟩
  have hne : x.addr ≠ h.next := Nat.ne_of_lt hlt
  refine ⟨rfl, fun hc => hne hc.symm, Heap.read_alloc_self h _, ?_⟩
  show ((h.alloc ((h.read x.addr).getD default)).2.read x.addr).isSome = true
  rw [Heap.read_alloc_ne h _ hne]
  exact hlive

/-- Witness for C9 (amended): instantiated on the one-payload heap, the move
construction lands at the fresh address 1 and leaves the source slot live. -/
theorem unique_move_ctor_allocates_fresh_witness :
    ex_heap.valid ex_unique.addr ∧
    (unique_move_ctor ex_heap ex_unique).1.addr ≠ ex_unique.addr ∧
    ((unique_move_ctor ex_heap ex_unique).2.read ex_unique.addr).isSome = true :=
  ⟨⟨by decide, by decide⟩,
    (unique_move_ctor_allocates_fresh ex_heap ex_unique ⟨by decide, by decide⟩).2.1,
    (unique_move_ctor_allocates_fresh ex_heap ex_unique ⟨by decide, by decide⟩).2.2.2⟩

/-- Claim C2: in every singleton variant, the first `get()` records the
instance it returns in the slot, and every call on an already-initialized
slot performs no construction, ignores its arguments, and returns the same
instance: the stored address for the heap variants, and the unchanged unique
static buffer for the stack variants (their state, hence the buffer contents,
is untouched and the result does not depend on the arguments). -/
theorem singleton_get_first_call_wins {α : Type}
    (s s₀ : heap_singleton_state α) (t t₀ : stack_singleton_state α) (a0 : Nat)
    (hs : s.data = some a0) (hs₀ : s₀.data = none)
    (ht : t.inited = true) (ht₀ : t₀.inited = false) (x y : α) :
    ((heap_singleton_get s₀ x).2.1.data = some (heap_singleton_get s₀ x).1) ∧
    (heap_singleton_get s x = (a0, s, false)) ∧
    (heap_singleton_get s x = heap_singleton_get s y) ∧
    ((heap_singleton_get_mt s₀ x).2.1.data = some (heap_singleton_get_mt s₀ x).1) ∧
    (heap_singleton_get_mt s x = (a0, s, false)) ∧
    (heap_singleton_get_mt s x = heap_singleton_get_mt s y) ∧
    ((stack_singleton_get t₀ x).1.inited = true) ∧
    (stack_singleton_get t x = (t, false)) ∧
    (stack_singleton_get t x = stack_singleton_get t y) ∧
    ((stack_singleton_get_mt t₀ x).1.inited = true) ∧
    (stack_singleton_get_mt t x = (t, false)) ∧
    (stack_singleton_get_mt t x = stack_singleton_get_mt t y) := by
  refine ⟨?_, ?_, ?_, ?_, ?_, ?_, ?_, ?_, ?_, ?_, ?_, ?_⟩ <;>
    simp [heap_singleton_get, heap_singleton_get_mt,
      stack_singleton_get, stack_singleton_get_mt, hs, hs₀, ht, ht₀]

/-- Witness for C2: calling `get(5)` first and then `get(1)` on the
single-threaded heap singleton returns address 0 both times, with no second
construction; the stack variant likewise keeps its state on the second call. -/
theorem singleton_get_first_call_wins_witness :
    ((heap_singleton_get heap_singleton_start 5).2.1.data = some 0) ∧
    (heap_singleton_get (heap_singleton_get heap_singleton_start 5).2.1 1
      = (0, (heap_singleton_get heap_singleton_start 5).2.1, false)) ∧
    (stack_singleton_get (⟨true, some 5⟩ : stack_singleton_state Nat) 1
      = ((⟨true, some 5⟩ : stack_singleton_state Nat), false)) :=
  ⟨by decide,
    (singleton_get_first_call_wins (heap_singleton_get heap_singleton_start 5).2.1
      heap_singleton_start (⟨true, some 5⟩ : stack_singleton_state Nat)
      stack_singleton_start 0 rfl rfl rfl rfl 1 2).2.1,
    (singleton_get_first_call_wins (heap_singleton_get heap_singleton_start 5).2.1
      heap_singleton_start (⟨true, some 5⟩ : stack_singleton_state Nat)
      stack_singleton_start 0 rfl rfl rfl rfl 1 2).2.2.2.2.2.2.2.1⟩

/-- A `get` call on the single-threaded heap variant keeps an initialized
slot initialized. -/
theorem heap_get_keeps_inited {α : Type} (s : heap_singleton_state α) (a : α)
    (h : heap_slot_inited s = true) :
    heap_slot_inited (heap_singleton_get s a).2.1 = true := by
  cases hd : s.data with
  | some p => simp [heap_singleton_get, hd, heap_slot_inited]
  | none => simp [heap_slot_inited, hd] at h

/-- A `get` call on the thread-safe heap variant (run sequentially) keeps an
initialized slot initialized. -/
theorem heap_get_mt_keeps_inited {α : Type} (s : heap_singleton_state α) (a : α)
    (h : heap_slot_inited s = true) :
    heap_slot_inited (heap_singleton_get_mt s a).2.1 = true := by
  cases hd : s.data with
  | some p => simp [heap_singleton_get_mt, hd, heap_slot_inited]
  | none => simp [heap_slot_inited, hd] at h

/-- A `get` call on the single-threaded stack variant keeps an initialized
slot initialized. -/
theorem stack_get_keeps_inited {α : Type} (s : stack_singleton_state α) (a : α)
    (h : stack_slot_inited s = true) :
    stack_slot_inited (stack_singleton_get s a).1 = true := by
  simp [stack_slot_inited] at h
  simp [stack_singleton_get, stack_slot_inited, h]

/-- A `get` call on the thread-safe stack variant (run sequentially) keeps an
initialized slot initialized. -/
theorem stack_get_mt_keeps_inited {α : Type} (s : stack_singleton_state α) (a : α)
    (h : stack_slot_inited s = true) :
    stack_slot_inited (stack_singleton_get_mt s a).1 = true := by
  simp [stack_slot_inited] at h
  simp [stack_singleton_get_mt, stack_slot_inited, h]

/-- No sequence of `get` calls de-initializes the single-threaded heap slot. -/
theorem heap_run_calls_keeps_inited {α : Type} :
    ∀ (ops : List (singleton_op α)) (s : heap_singleton_state α),
      calls_only ops = true → heap_slot_inited s = true →
      heap_slot_inited (heap_singleton_run s ops) = true
  | [], _, _, h => h
  | singleton_op.call a :: ops, s, hc, h =>
    heap_run_calls_keeps_inited ops _ hc (heap_get_keeps_inited s a h)
  | singleton_op.dtor :: _, _, hc, _ => by simp [calls_only] at hc

/-- No sequence of `get` calls de-initializes the thread-safe heap slot. -/
theorem heap_run_mt_calls_keeps_inited {α : Type} :
    ∀ (ops : List (singleton_op α)) (s : heap_singleton_state α),
      calls_only ops = true → heap_slot_inited s = true →
      heap_slot_inited (heap_singleton_run_mt s ops) = true
  | [], _, _, h => h
  | singleton_op.call a :: ops, s, hc, h =>
    heap_run_mt_calls_keeps_inited ops _ hc (heap_get_mt_keeps_inited s a h)
  | singleton_op.dtor :: _, _, hc, _ => by simp [calls_only] at hc

/-- No sequence of `get` calls de-initializes the single-threaded stack slot. -/
theorem stack_run_calls_keeps_inited {α : Type} :
    ∀ (ops : List (singleton_op α)) (s : stack_singleton_state α),
      calls_only ops = true → stack_slot_inited s = true →
      stack_slot_inited (stack_singleton_run s ops) = true
  | [], _, _, h => h
  | singleton_op.call a :: ops, s, hc, h =>
    stack_run_calls_keeps_inited ops _ hc (stack_get_keeps_inited s a h)
  | singleton_op.dtor :: _, _, hc, _ => by simp [calls_only] at hc

/-- No sequence of `get` calls de-initializes the thread-safe stack slot. -/
theorem stack_run_mt_calls_keeps_inited {α : Type} :
    ∀ (ops : List (singleton_op α)) (s : stack_singleton_state α),
      calls_only ops = true → stack_slot_inited s = true →
      stack_slot_inited (stack_singleton_run_mt s ops) = true
  | [], _, _, h => h
  | singleton_op.call a :: ops, s, hc, h =>
    stack_run_mt_calls_keeps_inited ops _ hc (stack_get_mt_keeps_inited s a h)
  | singleton_op.dtor :: _, _, hc, _ => by simp [calls_only] at hc

/-- Counterexample to C6 as stated: on the single-threaded heap variant,
`get(0)` initializes the slot, a destructor run returns it to exactly the
representation the code treats as uninitialized (`data_ == nullptr`), and a
subsequent `get(7)` performs a second construction — so a slot that has been
initialized does become uninitialized again, and `destroyed` is not a
distinct terminal state. -/
theorem singleton_slot_reinit_counterexample :
    heap_slot_inited (heap_singleton_run heap_singleton_start [singleton_op.call 0]) = true ∧
    heap_slot_inited (heap_singleton_run heap_singleton_start
      [singleton_op.call 0, singleton_op.dtor]) = false ∧
    (heap_singleton_get (heap_singleton_run heap_singleton_start
      [singleton_op.call 0, singleton_op.dtor]) 7).2.2 = true := by
  refine ⟨?_, ?_, ?_⟩ <;> decide

/-- Claim C6 (amended): for each of the four variants, `get()` calls alone
never return an initialized slot to the uninitialized state; only a destructor
run de-initializes it, and it resets the slot to the same representation as
the uninitialized state (the code keeps no distinct `destroyed` marker), so
the lifecycle `uninitialized -> initialized -> destroyed` holds exactly for
executions in which the destructor runs last. -/
theorem singleton_slot_no_reinit_without_dtor {α : Type}
    (s : heap_singleton_state α) (t : stack_singleton_state α)
    (ops : List (singleton_op α)) (hops : calls_only ops = true)
    (hs : heap_slot_inited s = true) (ht : stack_slot_inited t = true) :
    heap_slot_inited (heap_singleton_run s ops) = true ∧
    heap_slot_inited (heap_singleton_run_mt s ops) = true ∧
    stack_slot_inited (stack_singleton_run t ops) = true ∧
    stack_slot_inited (stack_singleton_run_mt t ops) = true ∧
    heap_slot_inited (heap_singleton_dtor s).1 = false ∧
    heap_slot_inited (heap_singleton_dtor_mt s).1 = false ∧
    stack_slot_inited (stack_singleton_dtor t).1 = false ∧
    stack_slot_inited (stack_singleton_dtor_mt t).1 = false := by
  refine ⟨heap_run_calls_keeps_inited ops s hops hs,
    heap_run_mt_calls_keeps_inited ops s hops hs,
    stack_run_calls_keeps_inited ops t hops ht,
    stack_run_mt_calls_keeps_inited ops t hops ht, ?_, ?_, ?_, ?_⟩ <;>
    cases hd : s.data <;> cases hi : t.inited <;>
    simp [heap_singleton_dtor, heap_singleton_dtor_mt, stack_singleton_dtor,
      stack_singleton_dtor_mt, heap_slot_inited, stack_slot_inited, hd, hi]

/-- Witness for C6 (amended): after the first `get(5)`, two further `get`
calls leave the heap slot initialized, and a destructor run clears it. -/
theorem singleton_slot_no_reinit_without_dtor_witness :
    calls_only [singleton_op.call 1, singleton_op.call 2] = true ∧
    heap_slot_inited (heap_singleton_run (heap_singleton_get heap_singleton_start 5).2.1
      [singleton_op.call 1, singleton_op.call 2]) = true ∧
    stack_slot_inited (stack_singleton_dtor
      (⟨true, some 5⟩ : stack_singleton_state Nat)).1 = false :=
  ⟨by decide,
    (singleton_slot_no_reinit_without_dtor (heap_singleton_get heap_singleton_start 5).2.1
      (⟨true, some 5⟩ : stack_singleton_state Nat)
      [singleton_op.call 1, singleton_op.call 2] (by decide) rfl rfl).1,
    (singleton_slot_no_reinit_without_dtor (heap_singleton_get heap_singleton_start 5).2.1
      (⟨true, some 5⟩ : stack_singleton_state Nat)
      [singleton_op.call 1, singleton_op.call 2] (by decide) rfl rfl).2.2.2.2.2.2.2⟩

/-- Claim C7: on an initialized slot, every singleton destructor tears down in
the documented order — heap variants: read the stored pointer into a
temporary, null the slot, free the former pointee (exactly the pointer read
first) last; stack variants: clear the initialization flag strictly before
running the payload's destructor. -/
theorem singleton_dtor_teardown_order {α : Type}
    (s : heap_singleton_state α) (t : stack_singleton_state α) (a0 : Nat)
    (hs : s.data = some a0) (ht : t.inited = true) :
    ((heap_singleton_dtor s).2.1
      = [dtor_event.ptr_read (some a0), dtor_event.slot_cleared,
          dtor_event.pointee_freed a0]) ∧
    ((heap_singleton_dtor s).1.data = none) ∧
    ((heap_singleton_dtor_mt s).2.1
      = [dtor_event.ptr_read (some a0), dtor_event.slot_cleared,
          dtor_event.pointee_freed a0]) ∧
    ((heap_singleton_dtor_mt s).1.data = none) ∧
    ((stack_singleton_dtor t).2.1
      = [dtor_event.flag_read true, dtor_event.flag_cleared,
          dtor_event.payload_destroyed]) ∧
    ((stack_singleton_dtor t).1.inited = false) ∧
    ((stack_singleton_dtor_mt t).2.1
      = [dtor_event.flag_read true, dtor_event.flag_cleared,
          dtor_event.payload_destroyed]) ∧
    ((stack_singleton_dtor_mt t).1.inited = false) := by
  refine ⟨?_, ?_, ?_, ?_, ?_, ?_, ?_, ?_⟩ <;>
    simp [heap_singleton_dtor, heap_singleton_dtor_mt, stack_singleton_dtor,
      stack_singleton_dtor_mt, hs, ht]

/-- Witness for C7: the destructor of the heap slot initialized by `get(5)`
performs read, clear, free in that order on address 0. -/
theorem singleton_dtor_teardown_order_witness :
    (heap_singleton_dtor (heap_singleton_get heap_singleton_start 5).2.1).2.1
      = [dtor_event.ptr_read (some 0), dtor_event.slot_cleared,
          dtor_event.pointee_freed 0] ∧
    (stack_singleton_dtor (⟨true, some 5⟩ : stack_singleton_state Nat)).2.1
      = [dtor_event.flag_read true, dtor_event.flag_cleared,
          dtor_event.payload_destroyed] :=
  ⟨(singleton_dtor_teardown_order (heap_singleton_get heap_singleton_start 5).2.1
      (⟨true, some 5⟩ : stack_singleton_state Nat) 0 rfl rfl).1,
    (singleton_dtor_teardown_order (heap_singleton_get heap_singleton_start 5).2.1
      (⟨true, some 5⟩ : stack_singleton_state Nat) 0 rfl rfl).2.2.2.2.1⟩

/-- Counterexample to C8 as stated: in the trace `get(5); dtor; dtor` on the
single-threaded heap variant, the `get` performs a successful initialization,
yet the second destructor run still fires the "Singleton used outside of
pattern" assertion (the assert list is `[false, true]`), because the first
destructor run reset the slot — so "fires only if no successful `get()`
initialization preceded it" is false. -/
theorem singleton_dtor_assert_counterexample :
    (heap_singleton_get heap_singleton_start 5).2.2 = true ∧
    heap_singleton_run_asserts heap_singleton_start
      [singleton_op.call 5, singleton_op.dtor, singleton_op.dtor] = [false, true] := by
  refine ⟨?_, ?_⟩ <;> decide

/-- Claim C8 (amended): a singleton destructor fires the debug assertion
exactly when the slot is uninitialized at destructor entry (no successful
initialization since the last destructor run); in particular destroying a
never-initialized singleton fires it, and the first destructor run after a
successful `get()` does not. -/
theorem singleton_dtor_assert_iff_uninit {α : Type}
    (s : heap_singleton_state α) (t : stack_singleton_state α) :
    ((heap_singleton_dtor s).2.2 = s.data.isNone) ∧
    ((heap_singleton_dtor_mt s).2.2 = s.data.isNone) ∧
    ((stack_singleton_dtor t).2.2 = !t.inited) ∧
    ((stack_singleton_dtor_mt t).2.2 = !t.inited) := by
  refine ⟨?_, ?_, ?_, ?_⟩ <;>
    cases hd : s.data <;> cases hi : t.inited <;>
    simp [heap_singleton_dtor, heap_singleton_dtor_mt, stack_singleton_dtor,
      stack_singleton_dtor_mt, hd, hi]

/-- Claim C10: destroying a never-initialized singleton performs no payload
operation at all — the heap destructors `delete` a null pointer (no free, and
the modelled heap is untouched), and the stack destructors skip the explicit
destructor call because it is guarded by the initialization flag, so no
destructor runs on the uninitialized buffer bytes (the buffer is untouched). -/
theorem singleton_dtor_uninit_no_payload_op {α : Type}
    (s : heap_singleton_state α) (t : stack_singleton_state α)
    (hs : s.data = none) (ht : t.inited = false) :
    ((heap_singleton_dtor s).2.1.filter is_payload_event = [] ∧
      (heap_singleton_dtor s).1.heap = s.heap) ∧
    ((heap_singleton_dtor_mt s).2.1.filter is_payload_event = [] ∧
      (heap_singleton_dtor_mt s).1.heap = s.heap) ∧
    ((stack_singleton_dtor t).2.1.filter is_payload_event = [] ∧
      (stack_singleton_dtor t).1.buf = t.buf) ∧
    ((stack_singleton_dtor_mt t).2.1.filter is_payload_event = [] ∧
      (stack_singleton_dtor_mt t).1.buf = t.buf) := by
  refine ⟨⟨?_, ?_⟩, ⟨?_, ?_⟩, ⟨?_, ?_⟩, ⟨?_, ?_⟩⟩ <;>
    simp [heap_singleton_dtor, heap_singleton_dtor_mt, stack_singleton_dtor,
      stack_singleton_dtor_mt, hs, ht, is_payload_event, List.filter]

/-- Witness for C10: destroying the never-used program-start slots performs
no payload operation and leaves heap and buffer untouched. -/
theorem singleton_dtor_uninit_no_payload_op_witness :
    heap_singleton_start.data = none ∧
    (heap_singleton_dtor heap_singleton_start).2.1.filter is_payload_event = [] ∧
    (stack_singleton_dtor stack_singleton_start).2.1.filter is_payload_event = [] :=
  ⟨rfl,
    (singleton_dtor_uninit_no_payload_op heap_singleton_start stack_singleton_start
      rfl rfl).1.1,
    (singleton_dtor_uninit_no_payload_op heap_singleton_start stack_singleton_start
      rfl rfl).2.2.1.1⟩

/-! ## Invariant proof for the double-checked-locking protocol -/

theorem set_thread_self (s : dcl_state) (t : Nat) (ts : thread_st) :
    (set_thread s t ts).threads t = ts := by
  simp [set_thread]

theorem set_thread_ne (s : dcl_state) (t : Nat) (ts : thread_st) {u : Nat} (h : u ≠ t) :
    (set_thread s t ts).threads u = s.threads u := by
  simp [set_thread, h]

@[simp]
theorem set_thread_marker (s : dcl_state) (t : Nat) (ts : thread_st) :
    (set_thread s t ts).marker = s.marker := rfl

@[simp]
theorem set_thread_payload (s : dcl_state) (t : Nat) (ts : thread_st) :
    (set_thread s t ts).payload = s.payload := rfl

@[simp]
theorem set_thread_mutex (s : dcl_state) (t : Nat) (ts : thread_st) :
    (set_thread s t ts).mutex = s.mutex := rfl

/-- Mutual exclusion: two threads inside the mutex-protected region are the
same thread. -/
theorem dcl_cs_unique {s : dcl_state} (H : dcl_inv s) {t u : Nat}
    (ht : in_cs (s.threads t).pc = true) (hu : in_cs (s.threads u).pc = true) :
    t = u := by
  have h1 := H.cs_owner t ht
  have h2 := H.cs_owner u hu
  rw [h1] at h2
  exact Option.some.inj h2

/-- The invariant holds initially. -/
theorem dcl_inv_init : dcl_inv dcl_init := by
  constructor <;> intros <;> simp_all [dcl_init, in_cs]

/-- The invariant is preserved by every step of every thread. -/
theorem dcl_inv_step {s s' : dcl_state} (H : dcl_inv s) (hs : dcl_step s s') :
    dcl_inv s' := by
  cases hs with
  | fast_hit t hpc hm =>
    refine ⟨?_, ?_, ?_, ?_, ?_, ?_, ?_, ?_, ?_, ?_⟩
    · intro h
      dsimp only [set_thread] at h ⊢
      exact H.marker_complete h
    · intro u hu
      dsimp only [set_thread] at hu ⊢
      rcases eq_or_ne u t with rfl | hne
      · rw [Function.update_same] at hu
        exact Bool.noConfusion hu
      · rw [Function.update_noteq hne] at hu
        exact H.cs_owner u hu
    · intro u hu
      dsimp only [set_thread] at hu ⊢
      rcases eq_or_ne u t with rfl | hne
      · rw [Function.update_same] at hu
        exact thread_pc.noConfusion hu
      · rw [Function.update_noteq hne] at hu
        exact H.ctor_underway u hu
    · intro u hu
      dsimp only [set_thread] at hu ⊢
      rcases eq_or_ne u t with rfl | hne
      · rw [Function.update_same] at hu
        exact thread_pc.noConfusion hu
      · rw [Function.update_noteq hne] at hu
        exact H.pub_ready u hu
    · intro u hu
      dsimp only [set_thread] at hu ⊢
      rcases eq_or_ne u t with rfl | hne
      · rw [Function.update_same] at hu
        exact thread_pc.noConfusion hu
      · rw [Function.update_noteq hne] at hu
        exact H.unlock_complete u hu
    · intro u hu
      dsimp only [set_thread] at hu ⊢
      rcases eq_or_ne u t with rfl | hne
      · exact H.marker_complete hm
      · rw [Function.update_noteq hne] at hu
        exact H.done_complete u hu
    · intro hp
      dsimp only [set_thread] at hp ⊢
      obtain ⟨u, hu⟩ := H.underway_owner hp
      have hne : u ≠ t := by
        intro he
        rw [he, hpc] at hu
        exact thread_pc.noConfusion hu
      refine ⟨u, ?_⟩
      rw [Function.update_noteq hne]
      exact hu
    · intro hp hm'
      dsimp only [set_thread] at hp hm'
      rw [hm] at hm'
      exact Bool.noConfusion hm'
    · intro u hu
      dsimp only [set_thread] at hu ⊢
      rcases eq_or_ne u t with rfl | hne
      · rw [Function.update_same] at hu
        exact thread_pc.noConfusion hu
      · rw [Function.update_noteq hne] at hu
        rw [Function.update_noteq hne]
        exact H.start_fresh u hu
    · intro u hu
      dsimp only [set_thread] at hu ⊢
      rcases eq_or_ne u t with rfl | hne
      · rw [Function.update_same] at hu
        rw [Function.update_same]
        exact ⟨rfl, (H.start_fresh u hpc).2⟩
      · rw [Function.update_noteq hne] at hu
        rw [Function.update_noteq hne]
        exact H.fast_done u hu
  | fast_miss t hpc hm =>
    refine ⟨?_, ?_, ?_, ?_, ?_, ?_, ?_, ?_, ?_, ?_⟩
    · intro h
      dsimp only [set_thread] at h ⊢
      exact H.marker_complete h
    · intro u hu
      dsimp only [set_thread] at hu ⊢
      rcases eq_or_ne u t with rfl | hne
      · rw [Function.update_same] at hu
        exact Bool.noConfusion hu
      · rw [Function.update_noteq hne] at hu
        exact H.cs_owner u hu
    · intro u hu
      dsimp only [set_thread] at hu ⊢
      rcases eq_or_ne u t with rfl | hne
      · rw [Function.update_same] at hu
        exact thread_pc.noConfusion hu
      · rw [Function.update_noteq hne] at hu
        exact H.ctor_underway u hu
    · intro u hu
      dsimp only [set_thread] at hu ⊢
      rcases eq_or_ne u t with rfl | hne
      · rw [Function.update_same] at hu
        exact thread_pc.noConfusion hu
      · rw [Function.update_noteq hne] at hu
        exact H.pub_ready u hu
    · intro u hu
      dsimp only [set_thread] at hu ⊢
      rcases eq_or_ne u t with rfl | hne
      · rw [Function.update_same] at hu
        exact thread_pc.noConfusion hu
      · rw [Function.update_noteq hne] at hu
        exact H.unlock_complete u hu
    · intro u hu
      dsimp only [set_thread] at hu ⊢
      rcases eq_or_ne u t with rfl | hne
      · rw [Function.update_same] at hu
        exact thread_pc.noConfusion hu
      · rw [Function.update_noteq hne] at hu
        exact H.done_complete u hu
    · intro hp
      dsimp only [set_thread] at hp ⊢
      obtain ⟨u, hu⟩ := H.underway_owner hp
      have hne : u ≠ t := by
        intro he
        rw [he, hpc] at hu
        exact thread_pc.noConfusion hu
      refine ⟨u, ?_⟩
      rw [Function.update_noteq hne]
      exact hu
    · intro hp hm'
      dsimp only [set_thread] at hp hm' ⊢
      obtain ⟨u, hu⟩ := H.complete_pub hp hm'
      have hne : u ≠ t := by
        intro he
        rw [he, hpc] at hu
        exact thread_pc.noConfusion hu
      refine ⟨u, ?_⟩
      rw [Function.update_noteq hne]
      exact hu
    · intro u hu
      dsimp only [set_thread] at hu ⊢
      rcases eq_or_ne u t with rfl | hne
      · rw [Function.update_same] at hu
        exact thread_pc.noConfusion hu
      · rw [Function.update_noteq hne] at hu
        rw [Function.update_noteq hne]
        exact H.start_fresh u hu
    · intro u hu
      dsimp only [set_thread] at hu ⊢
      rcases eq_or_ne u t with rfl | hne
      · rw [Function.update_same] at hu
        have hfin := (H.fast_done u hu).1
        rw [hpc] at hfin
        exact thread_pc.noConfusion hfin
      · rw [Function.update_noteq hne] at hu
        rw [Function.update_noteq hne]
        exact H.fast_done u hu
  | acquire t hpc hmu =>
    refine ⟨?_, ?_, ?_, ?_, ?_, ?_, ?_, ?_, ?_, ?_⟩
    · intro h
      dsimp only [set_thread] at h ⊢
      exact H.marker_complete h
    · intro u hu
      dsimp only [set_thread] at hu ⊢
      rcases eq_or_ne u t with rfl | hne
      · rfl
      · rw [Function.update_noteq hne] at hu
        have hmt := H.cs_owner u hu
        rw [hmu] at hmt
        exact Option.noConfusion hmt
    · intro u hu
      dsimp only [set_thread] at hu ⊢
      rcases eq_or_ne u t with rfl | hne
      · rw [Function.update_same] at hu
        exact thread_pc.noConfusion hu
      · rw [Function.update_noteq hne] at hu
        exact H.ctor_underway u hu
    · intro u hu
      dsimp only [set_thread] at hu ⊢
      rcases eq_or_ne u t with rfl | hne
      · rw [Function.update_same] at hu
        exact thread_pc.noConfusion hu
      · rw [Function.update_noteq hne] at hu
        exact H.pub_ready u hu
    · intro u hu
      dsimp only [set_thread] at hu ⊢
      rcases eq_or_ne u t with rfl | hne
      · rw [Function.update_same] at hu
        exact thread_pc.noConfusion hu
      · rw [Function.update_noteq hne] at hu
        exact H.unlock_complete u hu
    · intro u hu
      dsimp only [set_thread] at hu ⊢
      rcases eq_or_ne u t with rfl | hne
      · rw [Function.update_same] at hu
        exact thread_pc.noConfusion hu
      · rw [Function.update_noteq hne] at hu
        exact H.done_complete u hu
    · intro hp
      dsimp only [set_thread] at hp ⊢
      obtain ⟨u, hu⟩ := H.underway_owner hp
      have hne : u ≠ t := by
        intro he
        rw [he, hpc] at hu
        exact thread_pc.noConfusion hu
      refine ⟨u, ?_⟩
      rw [Function.update_noteq hne]
      exact hu
    · intro hp hm'
      dsimp only [set_thread] at hp hm' ⊢
      obtain ⟨u, hu⟩ := H.complete_pub hp hm'
      have hne : u ≠ t := by
        intro he
        rw [he, hpc] at hu
        exact thread_pc.noConfusion hu
      refine ⟨u, ?_⟩
      rw [Function.update_noteq hne]
      exact hu
    · intro u hu
      dsimp only [set_thread] at hu ⊢
      rcases eq_or_ne u t with rfl | hne
      · rw [Function.update_same] at hu
        exact thread_pc.noConfusion hu
      · rw [Function.update_noteq hne] at hu
        rw [Function.update_noteq hne]
        exact H.start_fresh u hu
    · intro u hu
      dsimp only [set_thread] at hu ⊢
      rcases eq_or_ne u t with rfl | hne
      · rw [Function.update_same] at hu
        have hfin := (H.fast_done u hu).1
        rw [hpc] at hfin
        exact thread_pc.noConfusion hfin
      · rw [Function.update_noteq hne] at hu
        rw [Function.update_noteq hne]
        exact H.fast_done u hu
  | recheck_hit t hpc hm =>
    have hcs : s.mutex = some t := H.cs_owner t (by rw [hpc]; rfl)
    refine ⟨?_, ?_, ?_, ?_, ?_, ?_, ?_, ?_, ?_, ?_⟩
    · intro h
      dsimp only [set_thread] at h ⊢
      exact H.marker_complete h
    · intro u hu
      dsimp only [set_thread] at hu ⊢
      rcases eq_or_ne u t with rfl | hne
      · exact hcs
      · rw [Function.update_noteq hne] at hu
        exact H.cs_owner u hu
    · intro u hu
      dsimp only [set_thread] at hu ⊢
      rcases eq_or_ne u t with rfl | hne
      · rw [Function.update_same] at hu
        exact thread_pc.noConfusion hu
      · rw [Function.update_noteq hne] at hu
        exact H.ctor_underway u hu
    · intro u hu
      dsimp only [set_thread] at hu ⊢
      rcases eq_or_ne u t with rfl | hne
      · rw [Function.update_same] at hu
        exact thread_pc.noConfusion hu
      · rw [Function.update_noteq hne] at hu
        exact H.pub_ready u hu
    · intro u hu
      dsimp only [set_thread] at hu ⊢
      rcases eq_or_ne u t with rfl | hne
      · exact H.marker_complete hm
      · rw [Function.update_noteq hne] at hu
        exact H.unlock_complete u hu
    · intro u hu
      dsimp only [set_thread] at hu ⊢
      rcases eq_or_ne u t with rfl | hne
      · rw [Function.update_same] at hu
        exact thread_pc.noConfusion hu
      · rw [Function.update_noteq hne] at hu
        exact H.done_complete u hu
    · intro hp
      dsimp only [set_thread] at hp ⊢
      obtain ⟨u, hu⟩ := H.underway_owner hp
      have hne : u ≠ t := by
        intro he
        rw [he, hpc] at hu
        exact thread_pc.noConfusion hu
      refine ⟨u, ?_⟩
      rw [Function.update_noteq hne]
      exact hu
    · intro hp hm'
      dsimp only [set_thread] at hp hm'
      rw [hm] at hm'
      exact Bool.noConfusion hm'
    · intro u hu
      dsimp only [set_thread] at hu ⊢
      rcases eq_or_ne u t with rfl | hne
      · rw [Function.update_same] at hu
        exact thread_pc.noConfusion hu
      · rw [Function.update_noteq hne] at hu
        rw [Function.update_noteq hne]
        exact H.start_fresh u hu
    · intro u hu
      dsimp only [set_thread] at hu ⊢
      rcases eq_or_ne u t with rfl | hne
      · rw [Function.update_same] at hu
        have hfin := (H.fast_done u hu).1
        rw [hpc] at hfin
        exact thread_pc.noConfusion hfin
      · rw [Function.update_noteq hne] at hu
        rw [Function.update_noteq hne]
        exact H.fast_done u hu
  | recheck_miss t hpc hm =>
    have hcs : s.mutex = some t := H.cs_owner t (by rw [hpc]; rfl)
    have honly : ∀ u, u ≠ t → in_cs (s.threads u).pc = true → False := fun u hne hcsu =>
      hne (dcl_cs_unique H hcsu (by rw [hpc]; rfl))
    refine ⟨?_, ?_, ?_, ?_, ?_, ?_, ?_, ?_, ?_, ?_⟩
    · intro h
      dsimp only [set_thread] at h
      rw [hm] at h
      exact Bool.noConfusion h
    · intro u hu
      dsimp only [set_thread] at hu ⊢
      rcases eq_or_ne u t with rfl | hne
      · exact hcs
      · rw [Function.update_noteq hne] at hu
        exact (honly u hne hu).elim
    · intro u hu
      dsimp only [set_thread] at hu ⊢
      rcases eq_or_ne u t with rfl | hne
      · exact ⟨rfl, hm⟩
      · rw [Function.update_noteq hne] at hu
        exact (honly u hne (by rw [hu]; rfl)).elim
    · intro u hu
      dsimp only [set_thread] at hu ⊢
      rcases eq_or_ne u t with rfl | hne
      · rw [Function.update_same] at hu
        exact thread_pc.noConfusion hu
      · rw [Function.update_noteq hne] at hu
        exact (honly u hne (by rw [hu]; rfl)).elim
    · intro u hu
      dsimp only [set_thread] at hu ⊢
      rcases eq_or_ne u t with rfl | hne
      · rw [Function.update_same] at hu
        exact thread_pc.noConfusion hu
      · rw [Function.update_noteq hne] at hu
        exact (honly u hne (by rw [hu]; rfl)).elim
    · intro u hu
      dsimp only [set_thread] at hu ⊢
      rcases eq_or_ne u t with rfl | hne
      · rw [Function.update_same] at hu
        exact thread_pc.noConfusion hu
      · rw [Function.update_noteq hne] at hu
        obtain ⟨v, hv⟩ := H.complete_pub (H.done_complete u hu) hm
        have hvne : v ≠ t := by
          intro he
          rw [he, hpc] at hv
          exact thread_pc.noConfusion hv
        exact (honly v hvne (by rw [hv]; rfl)).elim
    · intro _
      refine ⟨t, ?_⟩
      dsimp only [set_thread]
      simp [Function.update_same]
    · intro hp _
      dsimp only [set_thread] at hp
      exact ctor_state.noConfusion hp
    · intro u hu
      dsimp only [set_thread] at hu ⊢
      rcases eq_or_ne u t with rfl | hne
      · rw [Function.update_same] at hu
        exact thread_pc.noConfusion hu
      · rw [Function.update_noteq hne] at hu
        rw [Function.update_noteq hne]
        exact H.start_fresh u hu
    · intro u hu
      dsimp only [set_thread] at hu ⊢
      rcases eq_or_ne u t with rfl | hne
      · rw [Function.update_same] at hu
        have hfin := (H.fast_done u hu).1
        rw [hpc] at hfin
        exact thread_pc.noConfusion hfin
      · rw [Function.update_noteq hne] at hu
        rw [Function.update_noteq hne]
        exact H.fast_done u hu
  | finish_ctor t hpc =>
    have hcs : s.mutex = some t := H.cs_owner t (by rw [hpc]; rfl)
    have hum := H.ctor_underway t hpc
    have honly : ∀ u, u ≠ t → in_cs (s.threads u).pc = true → False := fun u hne hcsu =>
      hne (dcl_cs_unique H hcsu (by rw [hpc]; rfl))
    refine ⟨?_, ?_, ?_, ?_, ?_, ?_, ?_, ?_, ?_, ?_⟩
    · intro _
      rfl
    · intro u hu
      dsimp only [set_thread] at hu ⊢
      rcases eq_or_ne u t with rfl | hne
      · exact hcs
      · rw [Function.update_noteq hne] at hu
        exact (honly u hne hu).elim
    · intro u hu
      dsimp only [set_thread] at hu ⊢
      rcases eq_or_ne u t with rfl | hne
      · rw [Function.update_same] at hu
        exact thread_pc.noConfusion hu
      · rw [Function.update_noteq hne] at hu
        exact (honly u hne (by rw [hu]; rfl)).elim
    · intro u hu
      dsimp only [set_thread] at hu ⊢
      rcases eq_or_ne u t with rfl | hne
      · exact ⟨rfl, hum.2⟩
      · rw [Function.update_noteq hne] at hu
        exact (honly u hne (by rw [hu]; rfl)).elim
    · intro u _
      rfl
    · intro u _
      rfl
    · intro hp
      dsimp only [set_thread] at hp
      exact ctor_state.noConfusion hp
    · intro _ _
      refine ⟨t, ?_⟩
      dsimp only [set_thread]
      simp [Function.update_same]
    · intro u hu
      dsimp only [set_thread] at hu ⊢
      rcases eq_or_ne u t with rfl | hne
      · rw [Function.update_same] at hu
        exact thread_pc.noConfusion hu
      · rw [Function.update_noteq hne] at hu
        rw [Function.update_noteq hne]
        exact H.start_fresh u hu
    · intro u hu
      dsimp only [set_thread] at hu ⊢
      rcases eq_or_ne u t with rfl | hne
      · rw [Function.update_same] at hu
        have hfin := (H.fast_done u hu).1
        rw [hpc] at hfin
        exact thread_pc.noConfusion hfin
      · rw [Function.update_noteq hne] at hu
        rw [Function.update_noteq hne]
        exact H.fast_done u hu
  | publish t hpc =>
    have hcs : s.mutex = some t := H.cs_owner t (by rw [hpc]; rfl)
    have hpr := H.pub_ready t hpc
    have honly : ∀ u, u ≠ t → in_cs (s.threads u).pc = true → False := fun u hne hcsu =>
      hne (dcl_cs_unique H hcsu (by rw [hpc]; rfl))
    refine ⟨?_, ?_, ?_, ?_, ?_, ?_, ?_, ?_, ?_, ?_⟩
    · intro _
      dsimp only [set_thread]
      exact hpr.1
    · intro u hu
      dsimp only [set_thread] at hu ⊢
      rcases eq_or_ne u t with rfl | hne
      · exact hcs
      · rw [Function.update_noteq hne] at hu
        exact (honly u hne hu).elim
    · intro u hu
      dsimp only [set_thread] at hu ⊢
      rcases eq_or_ne u t with rfl | hne
      · rw [Function.update_same] at hu
        exact thread_pc.noConfusion hu
      · rw [Function.update_noteq hne] at hu
        exact (honly u hne (by rw [hu]; rfl)).elim
    · intro u hu
      dsimp only [set_thread] at hu ⊢
      rcases eq_or_ne u t with rfl | hne
      · rw [Function.update_same] at hu
        exact thread_pc.noConfusion hu
      · rw [Function.update_noteq hne] at hu
        exact (honly u hne (by rw [hu]; rfl)).elim
    · intro u hu
      dsimp only [set_thread] at hu ⊢
      rcases eq_or_ne u t with rfl | hne
      · exact hpr.1
      · rw [Function.update_noteq hne] at hu
        exact (honly u hne (by rw [hu]; rfl)).elim
    · intro u hu
      dsimp only [set_thread] at hu ⊢
      rcases eq_or_ne u t with rfl | hne
      · rw [Function.update_same] at hu
        exact thread_pc.noConfusion hu
      · rw [Function.update_noteq hne] at hu
        exact H.done_complete u hu
    · intro hp
      dsimp only [set_thread] at hp
      rw [hpr.1] at hp
      exact ctor_state.noConfusion hp
    · intro _ hm'
      dsimp only [set_thread] at hm'
      exact Bool.noConfusion hm'
    · intro u hu
      dsimp only [set_thread] at hu ⊢
      rcases eq_or_ne u t with rfl | hne
      · rw [Function.update_same] at hu
        exact thread_pc.noConfusion hu
      · rw [Function.update_noteq hne] at hu
        rw [Function.update_noteq hne]
        exact H.start_fresh u hu
    · intro u hu
      dsimp only [set_thread] at hu ⊢
      rcases eq_or_ne u t with rfl | hne
      · rw [Function.update_same] at hu
        have hfin := (H.fast_done u hu).1
        rw [hpc] at hfin
        exact thread_pc.noConfusion hfin
      · rw [Function.update_noteq hne] at hu
        rw [Function.update_noteq hne]
        exact H.fast_done u hu
  | release t hpc =>
    have hcs : s.mutex = some t := H.cs_owner t (by rw [hpc]; rfl)
    have hcomp := H.unlock_complete t hpc
    have honly : ∀ u, u ≠ t → in_cs (s.threads u).pc = true → False := fun u hne hcsu =>
      hne (dcl_cs_unique H hcsu (by rw [hpc]; rfl))
    refine ⟨?_, ?_, ?_, ?_, ?_, ?_, ?_, ?_, ?_, ?_⟩
    · intro h
      dsimp only [set_thread] at h ⊢
      exact H.marker_complete h
    · intro u hu
      dsimp only [set_thread] at hu ⊢
      rcases eq_or_ne u t with rfl | hne
      · rw [Function.update_same] at hu
        exact Bool.noConfusion hu
      · rw [Function.update_noteq hne] at hu
        exact (honly u hne hu).elim
    · intro u hu
      dsimp only [set_thread] at hu ⊢
      rcases eq_or_ne u t with rfl | hne
      · rw [Function.update_same] at hu
        exact thread_pc.noConfusion hu
      · rw [Function.update_noteq hne] at hu
        exact (honly u hne (by rw [hu]; rfl)).elim
    · intro u hu
      dsimp only [set_thread] at hu ⊢
      rcases eq_or_ne u t with rfl | hne
      · rw [Function.update_same] at hu
        exact thread_pc.noConfusion hu
      · rw [Function.update_noteq hne] at hu
        exact (honly u hne (by rw [hu]; rfl)).elim
    · intro u hu
      dsimp only [set_thread] at hu ⊢
      rcases eq_or_ne u t with rfl | hne
      · rw [Function.update_same] at hu
        exact thread_pc.noConfusion hu
      · rw [Function.update_noteq hne] at hu
        exact (honly u hne (by rw [hu]; rfl)).elim
    · intro u hu
      dsimp only [set_thread] at hu ⊢
      rcases eq_or_ne u t with rfl | hne
      · exact hcomp
      · rw [Function.update_noteq hne] at hu
        exact H.done_complete u hu
    · intro hp
      dsimp only [set_thread] at hp
      rw [hcomp] at hp
      exact ctor_state.noConfusion hp
    · intro hp hm'
      dsimp only [set_thread] at hp hm' ⊢
      obtain ⟨u, hu⟩ := H.complete_pub hp hm'
      have hne : u ≠ t := by
        intro he
        rw [he, hpc] at hu
        exact thread_pc.noConfusion hu
      refine ⟨u, ?_⟩
      rw [Function.update_noteq hne]
      exact hu
    · intro u hu
      dsimp only [set_thread] at hu ⊢
      rcases eq_or_ne u t with rfl | hne
      · rw [Function.update_same] at hu
        exact thread_pc.noConfusion hu
      · rw [Function.update_noteq hne] at hu
        rw [Function.update_noteq hne]
        exact H.start_fresh u hu
    · intro u hu
      dsimp only [set_thread] at hu ⊢
      rcases eq_or_ne u t with rfl | hne
      · rw [Function.update_same] at hu
        have hfin := (H.fast_done u hu).1
        rw [hpc] at hfin
        exact thread_pc.noConfusion hfin
      · rw [Function.update_noteq hne] at hu
        rw [Function.update_noteq hne]
        exact H.fast_done u hu

/-- Every reachable state of the protocol satisfies the invariant. -/
theorem dcl_inv_reachable {s : dcl_state} (h : dcl_reachable s) : dcl_inv s := by
  induction h with
  | init => exact dcl_inv_init
  | step _ hs ih => exact dcl_inv_step ih hs

/-- Claim C1: in every reachable state of the thread-safe singleton protocol
(`heap_singleton<T, true>::get` and `stack_singleton<..., true>::get`), under
any interleaving: a thread whose initial atomic read of the initialization
marker observed "initialized" returned without ever acquiring the mutex; the
marker being set implies the payload is fully constructed (so no thread that
observes the marker initialized can observe a partially constructed payload);
the release store of the marker only happens after construction has
completed; and every thread that has returned from `get()` finds the payload
fully constructed. -/
theorem dcl_thread_safe_get {s : dcl_state} (h : dcl_reachable s) :
    (∀ t, (s.threads t).fast = true → (s.threads t).took_lock = false) ∧
    (s.marker = true → s.payload = ctor_state.complete) ∧
    (∀ t, (s.threads t).pc = thread_pc.publishing → s.payload = ctor_state.complete) ∧
    (∀ t, (s.threads t).pc = thread_pc.finished → s.payload = ctor_state.complete) := by
  have H := dcl_inv_reachable h
  exact ⟨fun t ht => (H.fast_done t ht).2, H.marker_complete,
    fun t ht => (H.pub_ready t ht).1, H.done_complete⟩

/-- The demo execution — thread 0 runs the whole slow path — is reachable. -/
theorem dcl_demo_reachable : dcl_reachable dcl_d6 := by
  have h1 : dcl_reachable dcl_d1 :=
    dcl_reachable.step dcl_reachable.init (dcl_step.fast_miss 0 rfl rfl)
  have h2 : dcl_reachable dcl_d2 :=
    dcl_reachable.step h1 (dcl_step.acquire 0 rfl rfl)
  have h3 : dcl_reachable dcl_d3 :=
    dcl_reachable.step h2 (dcl_step.recheck_miss 0 rfl rfl)
  have h4 : dcl_reachable dcl_d4 :=
    dcl_reachable.step h3 (dcl_step.finish_ctor 0 rfl)
  have h5 : dcl_reachable dcl_d5 :=
    dcl_reachable.step h4 (dcl_step.publish 0 rfl)
  exact dcl_reachable.step h5 (dcl_step.release 0 rfl)

/-- Witness for C1: in the reachable state where thread 0 has completed the
slow path, the marker is set and the payload is fully constructed. -/
theorem dcl_thread_safe_get_witness :
    dcl_d6.marker = true ∧ dcl_d6.payload = ctor_state.complete :=
  ⟨rfl, (dcl_thread_safe_get dcl_demo_reachable).2.1 rfl⟩

end PycppAdaptor
